import Mathlib

/-!
Verification of the election-dashboard core logic.

The development shallowly embeds:
* the record-collapsing data migration
  (`src/dashboard/apps/hub/migrations/0024_collapse_primary_records.py`,
  `Migration.forwards`), modelling the database table as a `List Election`
  and the ORM `delete()` / `save()` calls as removal / replacement by
  primary key, and
* the model methods `Election.offices`, `Election.elec_key`,
  `Election.special_key`, `Election.clean`, `Log.log_key` and
  `State.results_status`.  The file `models.py` that defines these methods
  is not part of the source excerpt (only its tests are), so these
  definitions are modelled from the specification, with behaviour pinned
  by the expected values in
  `src/dashboard/apps/hub/tests/test_models.py` where the two disagree.
-/

deriving instance DecidableEq for Except

namespace Hub

/-- An election record, with the fields of `hub.election` that the core
logic reads or writes: identity (`id` is the ORM primary key), the race
classification (`race_type`, `special`), grouping fields used by the
collapse migration (`state_id`, `end_date`, `office_id`, `district`),
the primary-election fields (`primary_type`, `primary_party`) and the six
office-contested boolean flags.  `end_date` is `Option` because the
column is declared `blank=True`; `office_id` and `primary_party` are
nullable references (represented by their slug / abbreviation). -/
structure Election where
  id : Nat
  special : Bool
  race_type : String
  state_id : String
  end_date : Option String
  office_id : Option String
  district : String
  primary_type : String
  primary_party : Option String
  prez : Bool
  senate : Bool
  house : Bool
  gov : Bool
  state_officers : Bool
  state_leg : Bool
deriving Repr, DecidableEq

/-- `elec.delete()`: remove the row with `e`'s primary key. -/
def deleteRecord (db : List Election) (e : Election) : List Election :=
  db.filter (fun x => decide (x.id ≠ e.id))

/-- `to_keep.save()`: overwrite the row with `e`'s primary key by `e`. -/
def saveRecord (db : List Election) (e : Election) : List Election :=
  db.map (fun x => if x.id = e.id then e else x)

/-- One step of `groups.setdefault(key, []).append(elec)`: append `e` to
the entry for `k`, creating the entry at the end when absent. -/
def addToGroups {K : Type} [DecidableEq K] (k : K) (e : Election) :
    List (K × List Election) → List (K × List Election)
  | [] => [(k, [e])]
  | (k1, es) :: rest =>
      if k = k1 then (k1, es ++ [e]) :: rest
      else (k1, es) :: addToGroups k e rest

/-- The grouping loop `for elec in ...: groups.setdefault(key, []).append(elec)`. -/
def buildGroups {K : Type} [DecidableEq K] (key : Election → K) :
    List Election → List (K × List Election) → List (K × List Election)
  | [], gs => gs
  | e :: rest, gs => buildGroups key rest (addToGroups (key e) e gs)

/-- The filter `special=False, race_type='primary'` of step 1. -/
def isNonSpecialPrimary (e : Election) : Bool :=
  !e.special && e.race_type == "primary"

/-- The grouping key of step 1: `(elec.state_id, elec.end_date)`. -/
def key1 (e : Election) : String × Option String :=
  (e.state_id, e.end_date)

/-- The office-flag merge of the inner loop of step 1:
`if getattr(elec, office) == True: setattr(to_keep, office, True)` for each
of the six office flags. -/
def mergeOffices (to_keep elec : Election) : Election :=
  { to_keep with
    prez := if elec.prez then true else to_keep.prez
    senate := if elec.senate then true else to_keep.senate
    house := if elec.house then true else to_keep.house
    gov := if elec.gov then true else to_keep.gov
    state_officers := if elec.state_officers then true else to_keep.state_officers
    state_leg := if elec.state_leg then true else to_keep.state_leg }

/-- The body of step 1's per-group loop: when the group has more than one
record, merge the office flags of the duplicates into `elecs[0]`, delete
the duplicates and save the merged record.  (The source interleaves the
merge of each duplicate with its `delete()` and calls `save()` once at the
end; since the merge reads only the already-captured group members and the
database operations address rows by primary key, performing the merges,
then the deletions, then the save is the same database transformation.) -/
def collapseGroup (db : List Election) : List Election → List Election
  | e0 :: e1 :: rest =>
      let to_keep := (e1 :: rest).foldl mergeOffices e0
      saveRecord ((e1 :: rest).foldl deleteRecord db) to_keep
  | _ => db

/-- Step 1 of `Migration.forwards`: group the non-special primaries by
`(state_id, end_date)` and collapse every group.  (The source iterates
`sorted(groups.items())`; sorting only fixes the processing order of the
pairwise-disjoint groups and the order of the log output, not the final
database state, so the fold processes the groups in the dictionary's
insertion order.) -/
def step1 (db : List Election) : List Election :=
  let groups := buildGroups key1 (db.filter isNonSpecialPrimary) []
  groups.foldl (fun d g => collapseGroup d g.2) db

/-- The filter `special=True, race_type='primary'` of step 2. -/
def isSpecialPrimary (e : Election) : Bool :=
  e.special && e.race_type == "primary"

/-- The grouping key of step 2:
`(elec.state_id, elec.end_date, elec.office_id, elec.district)`. -/
def key2 (e : Election) : String × Option String × Option String × String :=
  (e.state_id, e.end_date, e.office_id, e.district)

/-- The body of step 2's per-group loop: when the group has more than one
record, delete every record but `elecs[0]`; nothing is merged or saved. -/
def dropGroup (db : List Election) : List Election → List Election
  | _e0 :: e1 :: rest => (e1 :: rest).foldl deleteRecord db
  | _ => db

/-- Step 2 of `Migration.forwards`: while grouping the special primaries by
`(state_id, end_date, office_id, district)` the loop raises
`Exception("%s has no end_date" % elec)` at the first special primary
whose `end_date` is missing (so step 2 deletes nothing in that case);
otherwise every group is reduced to its first record. -/
def step2 (db : List Election) : Except String (List Election) :=
  match (db.filter isSpecialPrimary).find? (fun e => e.end_date.isNone) with
  | some e => .error (toString e.id ++ " has no end_date")
  | none =>
      let groups := buildGroups key2 (db.filter isSpecialPrimary) []
      .ok (groups.foldl (fun d g => dropGroup d g.2) db)

/-- `Migration.forwards`: step 1 runs to completion, then step 2 runs and
may abort.  The value returned on failure is the error; the database state
at the point of failure is `step1 db`, since step 2 deletes nothing before
raising. -/
def forwards (db : List Election) : Except String (List Election) :=
  step2 (step1 db)

/-! ### Specification-side descriptions of the two steps

These definitions transcribe the specification's description of the
Merge/Collapse Procedure (spec §4.4): they are compared with `step1` and
`step2` above, which are transcribed from the migration source. -/

/-- The records of the `(state, end_date)` partition `k`, in the record
set's natural iteration order. -/
def partition1 (db : List Election) (k : String × Option String) : List Election :=
  (db.filter isNonSpecialPrimary).filter (fun e => decide (key1 e = k))

/-- The spec's description of the merged record: the first record of the
partition with each of the six office flags replaced by the OR of that
flag over all records of the partition. -/
def orOffices (part : List Election) (e0 : Election) : Election :=
  { e0 with
    prez := part.any (fun x => x.prez)
    senate := part.any (fun x => x.senate)
    house := part.any (fun x => x.house)
    gov := part.any (fun x => x.gov)
    state_officers := part.any (fun x => x.state_officers)
    state_leg := part.any (fun x => x.state_leg) }

/-- The spec's description of step 1, per record: a record that is not a
non-special primary, or whose partition is a singleton, is kept unchanged;
in a partition with more than one record the first record survives with
the OR-merged office flags and the others are deleted. -/
def step1Body (db : List Election) (e : Election) : Option Election :=
  if isNonSpecialPrimary e = true then
    match partition1 db (key1 e) with
    | e0 :: e1 :: rest =>
        if e.id = e0.id then some (orOffices (e0 :: e1 :: rest) e0) else none
    | _ => some e
  else some e

/-- The spec's description of step 1, applied to every record. -/
def step1Spec (db : List Election) : List Election :=
  db.filterMap (step1Body db)

/-- The records of the `(state, end_date, office, district)` partition `k`
of the special primaries. -/
def partition2 (db : List Election)
    (k : String × Option String × Option String × String) : List Election :=
  (db.filter isSpecialPrimary).filter (fun e => decide (key2 e = k))

/-- The spec's description of step 2, per record: records that are not
special primaries are untouched; of every partition of special primaries
exactly the first record survives, unmodified. -/
def step2Body (db : List Election) (e : Election) : Option Election :=
  if isSpecialPrimary e = true then
    match partition2 db (key2 e) with
    | e0 :: _ => if e.id = e0.id then some e else none
    | [] => some e
  else some e

/-- The spec's description of step 2, applied to every record. -/
def step2Spec (db : List Election) : List Election :=
  db.filterMap (step2Body db)

/-! ### Model methods

`models.py` is not part of the source excerpt, so the following
definitions are modelled from the specification (§3, §4.1–§4.3), with the
expected values of `tests/test_models.py` pinning the behaviour wherever
the tests exercise it. -/

/-- Modelled from the spec: the fixed canonical ordering of the six
office flags used by `Election.offices` (spec §4.1, §9: an explicit
ordered list of flag-name/accessor pairs). -/
def officeFlags : List (String × (Election → Bool)) :=
  [("prez", Election.prez), ("senate", Election.senate),
   ("house", Election.house), ("gov", Election.gov),
   ("state_officers", Election.state_officers),
   ("state_leg", Election.state_leg)]

/-- Modelled from the spec: `Election.offices` (absent from src/) returns
the ordered subset of {prez, senate, house, gov, state_officers,
state_leg} whose flag is true, in the fixed canonical ordering. -/
def Election.offices (e : Election) : List String :=
  officeFlags.filterMap fun p => if p.2 e then some p.1 else none

/-- Modelled from the spec: `Election.elec_key` (absent from src/)
returns `(end_date, state_postal, race_type, *qualifier, *offices)`,
where the qualifier is empty for general races and `(primary_party,)`,
or `()` when no party is set, for primaries.  The spec's description of
the special qualifier conflicts with the expected tuples of
`ElectionTest.test_elec_key` (which are the authority): the test places
the literal marker `special` before the race type and keeps the office
list, so the special marker is modelled that way here; the office slug
and district appear only in `special_key`. -/
def Election.elec_key (e : Election) : List String :=
  [e.end_date.getD "", e.state_id]
    ++ (if e.special then ["special"] else [])
    ++ [e.race_type]
    ++ (if e.race_type = "primary" then
          match e.primary_party with
          | some p => [p]
          | none => []
        else [])
    ++ e.offices

/-- Modelled from the spec: the string-rendering mode of `elec_key`
(`as_string=True`) joins the tuple with " - " separators and wraps the
office list in parentheses joined by ", " (spec §4.1, matching the
expected strings of `ElectionTest.test_elec_key`). -/
def Election.elec_key_string (e : Election) : String :=
  let bits := [e.end_date.getD "", e.state_id]
    ++ (if e.special then ["special"] else [])
    ++ [e.race_type]
    ++ (if e.race_type = "primary" then
          match e.primary_party with
          | some p => [p]
          | none => []
        else [])
  let base := " - ".intercalate bits
  match e.offices with
  | [] => base
  | os => base ++ " (" ++ ", ".intercalate os ++ ")"

/-- Modelled from the spec: `Election.special_key` (absent from src/)
returns `(race_type, office_slug, district?)` for special elections and
the empty tuple otherwise; the district component is omitted when the
district field is empty (spec §4.1). -/
def Election.special_key (e : Election) : List String :=
  if e.special then
    [e.race_type, e.office_id.getD ""]
      ++ (if e.district = "" then [] else [e.district])
  else []

/-- Modelled from the spec: `Election.clean` (absent from src/), the
pre-save validation of spec §4.2, fail-fast (the observed behaviour).
For generals: at least one office flag, and no primary_type or
primary_party.  For primaries: primary_type non-empty and one of
{open, closed, blanket, other}; open and closed require a primary_party;
a primary_type of `other` is rejected as an edge case requiring
explanation, following the expected `ValidationError` of
`ElectionTest.test_primary_elec_validation_rules` (the authority where it
differs from the spec's sentence); for `blanket` the rule is an explicit
open question (spec §9) — the spec reports that the observed test expects
an error even when a primary_party is set, so the model raises there too
(no in-src test pins this branch).  For specials: an office must be set,
and a state-legislative office (abstracted here as the slugs
`state-senate` and `state-house`) requires a non-empty district. -/
def Election.clean (e : Election) : Except String Unit :=
  if e.race_type = "general" then
    if !(e.prez || e.senate || e.house || e.gov || e.state_officers || e.state_leg) then
      .error "general election must have at least one office flag"
    else if e.primary_type ≠ "" then
      .error "general election cannot have a primary type"
    else if e.primary_party ≠ none then
      .error "general election cannot have a primary party"
    else .ok ()
  else if e.race_type = "primary" then
    if e.primary_type = "" then
      .error "primary election must have a primary type"
    else if e.primary_type = "other" then
      .error "primary type of other requires explanation"
    else if ¬(e.primary_type = "open" ∨ e.primary_type = "closed" ∨
              e.primary_type = "blanket") then
      .error "primary type must be open, closed, blanket or other"
    else if e.primary_type = "blanket" then
      .error "blanket primary validation is an open question"
    else if (e.primary_type = "open" ∨ e.primary_type = "closed") ∧
            e.primary_party = none then
      .error "open and closed primaries must have a primary party"
    else .ok ()
  else if e.race_type = "special" then
    if e.office_id = none then
      .error "special election must have an office"
    else if (e.office_id = some "state-senate" ∨ e.office_id = some "state-house") ∧
            e.district = "" then
      .error "state legislative special election must have a district"
    else .ok ()
  else .ok ()

/-- A related election-result record as seen by `State.results_status`:
the per-level data-quality status fields the rollup examines. -/
structure ResultRecord where
  precinct_level_status : String
  county_level_status : String
deriving Repr, DecidableEq

/-- Modelled from the spec: `State.results_status` (absent from src/)
examines the counts of related records bucketed by level-status field, as
an ordered rule list evaluated top-down, first match wins (spec §4.3):
precinct-level `baked-raw` records together with a county-level `baked`
record give `clean`; precinct-level `baked-raw` records alone give `raw`;
otherwise the status is null. -/
def results_status (elecs : List ResultRecord) : Option String :=
  if 0 < (elecs.filter
        (fun r => r.precinct_level_status == "baked-raw")).length ∧
      0 < (elecs.filter (fun r => r.county_level_status == "baked")).length then
    some "clean"
  else if 0 < (elecs.filter
      (fun r => r.precinct_level_status == "baked-raw")).length then
    some "raw"
  else none

/-- A log entry, with the fields `Log.log_key` reads: the state reference,
the date, the subject line and the optional contact (represented by its
descriptive label, e.g. `Williams (Kansas Secretary of State elections
division)`). -/
structure Log where
  state_id : String
  date : String
  subject : String
  contact : Option String
deriving Repr, DecidableEq

/-- Modelled from the spec: `Log.log_key` (absent from src/) derives the
log's identity from (state, date, subject), extended with the contact's
descriptive label when a contact is set.  The position of the label
follows the expected tuple of `LogTest.test_log_key` (the authority): the
label is inserted before the subject, giving
(state, date, contact_label, subject). -/
def Log.log_key (l : Log) : List String :=
  match l.contact with
  | none => [l.state_id, l.date, l.subject]
  | some label => [l.state_id, l.date, label, l.subject]

/-- Modelled from the spec: the string-rendering mode of `log_key`
(`as_string=True`) joins the key components with " - ". -/
def Log.log_key_string (l : Log) : String :=
  " - ".intercalate l.log_key

/-! ### Proof infrastructure -/

/-- The value stored under key `k` in a grouping dictionary (empty when
the key is absent). -/
def groupVal {K : Type} [DecidableEq K] : List (K × List Election) → K → List Election
  | [], _ => []
  | (k1, es) :: rest, k => if k = k1 then es else groupVal rest k

/-- A per-record database transformation that never changes a record's
primary key: it may keep, drop or rewrite a row, but a rewritten row keeps
its `id`. -/
def IdOk (f : Election → Option Election) : Prop :=
  ∀ a x, f a = some x → x.id = a.id

/-- The per-record effect of step 1 restricted to the partitions whose
keys lie in `ks` (partitions taken in the original record set `db`);
records of unprocessed partitions are untouched.  `spec1At db ks` with
`ks` covering every key coincides with the body of `step1Spec`. -/
def spec1At (db : List Election) (ks : List (String × Option String))
    (e : Election) : Option Election :=
  if isNonSpecialPrimary e = true ∧ key1 e ∈ ks then
    match partition1 db (key1 e) with
    | e0 :: e1 :: rest =>
        if e.id = e0.id then some (orOffices (e0 :: e1 :: rest) e0) else none
    | _ => some e
  else some e

/-- The per-record effect of step 2 restricted to the partitions whose
keys lie in `ks`, analogous to `spec1At`. -/
def spec2At (db : List Election)
    (ks : List (String × Option String × Option String × String))
    (e : Election) : Option Election :=
  if isSpecialPrimary e = true ∧ key2 e ∈ ks then
    match partition2 db (key2 e) with
    | e0 :: _ => if e.id = e0.id then some e else none
    | [] => some e
  else some e

/-! ### Concrete records for witnesses and counterexamples

The elections mirror the Florida fixtures of
`tests/test_models.py` (the 2012 general, the 2012 GOP primary with the
party set as in spec §8's example, and the special election of spec §8),
the log mirrors `LogTest.test_log_key`. -/

/-- The FL 2012-11-06 general election of `ElectionTest` (pk 4). -/
def flGeneral : Election :=
  { id := 4, special := false, race_type := "general", state_id := "FL",
    end_date := some "2012-11-06", office_id := none, district := "",
    primary_type := "", primary_party := none,
    prez := true, senate := true, house := true, gov := false,
    state_officers := true, state_leg := true }

/-- The FL 2012-08-14 REP primary of spec §8's example (pk 30). -/
def flGopPrimary : Election :=
  { id := 30, special := false, race_type := "primary", state_id := "FL",
    end_date := some "2012-08-14", office_id := none, district := "",
    primary_type := "closed", primary_party := some "REP",
    prez := false, senate := true, house := true, gov := false,
    state_officers := false, state_leg := true }

/-- The special election of spec §8's example: office `state-senate`,
district `1`. -/
def flSpecial : Election :=
  { id := 35, special := true, race_type := "special", state_id := "FL",
    end_date := some "2011-09-20", office_id := some "state-senate",
    district := "1", primary_type := "", primary_party := none,
    prez := false, senate := false, house := false, gov := false,
    state_officers := false, state_leg := true }

/-- A record set exercising both steps of the migration: two mergeable
FL primaries (ids 1 and 2), the general, and two duplicate special
primaries (ids 5 and 6). -/
def dbSample : List Election :=
  [ { id := 1, special := false, race_type := "primary", state_id := "FL",
      end_date := some "2012-08-14", office_id := none, district := "",
      primary_type := "closed", primary_party := some "REP",
      prez := false, senate := true, house := false, gov := false,
      state_officers := false, state_leg := true },
    { id := 2, special := false, race_type := "primary", state_id := "FL",
      end_date := some "2012-08-14", office_id := none, district := "",
      primary_type := "closed", primary_party := some "REP",
      prez := false, senate := false, house := true, gov := false,
      state_officers := false, state_leg := false },
    flGeneral,
    { id := 5, special := true, race_type := "primary", state_id := "FL",
      end_date := some "2011-09-20", office_id := some "state-senate",
      district := "1", primary_type := "closed", primary_party := some "REP",
      prez := false, senate := false, house := false, gov := false,
      state_officers := false, state_leg := true },
    { id := 6, special := true, race_type := "primary", state_id := "FL",
      end_date := some "2011-09-20", office_id := some "state-senate",
      district := "1", primary_type := "closed", primary_party := some "REP",
      prez := false, senate := false, house := false, gov := false,
      state_officers := false, state_leg := true } ]

/-- The record set produced by a successful run of the migration on
`dbSample`: the two FL primaries are merged into the id-1 record with the
OR of their office flags, and the duplicate special primary (id 6) is
deleted. -/
def dbSampleMerged : List Election :=
  [ { id := 1, special := false, race_type := "primary", state_id := "FL",
      end_date := some "2012-08-14", office_id := none, district := "",
      primary_type := "closed", primary_party := some "REP",
      prez := false, senate := true, house := true, gov := false,
      state_officers := false, state_leg := true },
    flGeneral,
    { id := 5, special := true, race_type := "primary", state_id := "FL",
      end_date := some "2011-09-20", office_id := some "state-senate",
      district := "1", primary_type := "closed", primary_party := some "REP",
      prez := false, senate := false, house := false, gov := false,
      state_officers := false, state_leg := true } ]

/-- A record set whose single special primary lacks an `end_date`. -/
def dbNoDate : List Election :=
  [ flGeneral,
    { id := 7, special := true, race_type := "primary", state_id := "FL",
      end_date := none, office_id := some "state-senate", district := "1",
      primary_type := "closed", primary_party := some "REP",
      prez := false, senate := false, house := false, gov := false,
      state_officers := false, state_leg := true } ]

/-- The log of `LogTest.test_log_key` before a contact is attached. -/
def ksLog : Log :=
  { state_id := "KS", date := "2013-03-28",
    subject := "Test subject line", contact := none }

/-- The same log with the contact attached, as in the second half of
`LogTest.test_log_key`. -/
def ksLogContact : Log :=
  { ksLog with
    contact := some "Williams (Kansas Secretary of State elections division)" }

/-! ### Representation lemmas for the database operations

A database reached from `db` by per-record keeps/drops/rewrites is
`db.filterMap f` for an `IdOk` function `f`; deleting and saving by
primary key act pointwise on such a representation. -/

theorem deleteRecord_filterMap (db : List Election) (f : Election → Option Election)
    (hf : IdOk f) (e : Election) :
    deleteRecord (db.filterMap f) e
      = db.filterMap (fun a => if a.id = e.id then none else f a) := by
  unfold deleteRecord
  rw [List.filter_filterMap]
  refine List.filterMap_congr (fun a _ => ?_)
  cases hfa : f a with
  | none =>
      by_cases h : a.id = e.id <;> simp [Option.filter, h]
  | some x =>
      have hx : x.id = a.id := hf a x hfa
      by_cases h : a.id = e.id <;> simp [Option.filter, h, hx]

theorem idOk_delete (f : Election → Option Election) (hf : IdOk f) (j : Nat) :
    IdOk (fun a => if a.id = j then none else f a) := by
  intro a x hx
  by_cases h : a.id = j
  · simp [h] at hx
  · simp only [h, if_false] at hx
    exact hf a x hx

theorem foldl_deleteRecord_filterMap (l : List Election) :
    ∀ (db : List Election) (f : Election → Option Election), IdOk f →
      l.foldl deleteRecord (db.filterMap f)
        = db.filterMap (fun a => if a.id ∈ l.map Election.id then none else f a) := by
  induction l with
  | nil =>
      intro db f _
      simp only [List.map_nil, List.foldl_nil]
      refine (List.filterMap_congr (fun a _ => ?_)).symm
      simp
  | cons b l ih =>
      intro db f hf
      rw [List.foldl_cons, deleteRecord_filterMap db f hf b,
        ih db _ (idOk_delete f hf b.id)]
      refine List.filterMap_congr (fun a _ => ?_)
      by_cases h1 : a.id = b.id <;> by_cases h2 : a.id ∈ l.map Election.id <;>
        simp [h1, h2]

theorem saveRecord_filterMap (db : List Election) (f : Election → Option Election)
    (r : Election) :
    saveRecord (db.filterMap f) r
      = db.filterMap (fun a => (f a).map (fun x => if x.id = r.id then r else x)) := by
  unfold saveRecord
  rw [List.map_filterMap]

theorem id_injOn (db : List Election) (hnd : (db.map Election.id).Nodup) :
    ∀ a ∈ db, ∀ b ∈ db, a.id = b.id → a = b := by
  induction db with
  | nil => intro a ha; cases ha
  | cons c l ih =>
      intro a ha b hb hab
      rw [List.map_cons, List.nodup_cons] at hnd
      obtain ⟨hc, hl⟩ := hnd
      have hmem : ∀ x ∈ l, c.id ≠ x.id := by
        intro x hx hcx
        exact hc (hcx ▸ List.mem_map_of_mem Election.id hx)
      rcases List.mem_cons.mp ha with h1 | h1 <;>
        rcases List.mem_cons.mp hb with h2 | h2
      · rw [h1, h2]
      · subst h1; exact absurd hab (hmem b h2)
      · subst h2; exact absurd hab.symm (hmem a h1)
      · exact ih hl a h1 b h2 hab

theorem ids_filterMap_sublist (f : Election → Option Election) (hf : IdOk f) :
    ∀ db : List Election,
      ((db.filterMap f).map Election.id).Sublist (db.map Election.id) := by
  intro db
  induction db with
  | nil => simp
  | cons b l ih =>
      rw [List.filterMap_cons, List.map_cons]
      cases hfb : f b with
      | none => exact ih.cons b.id
      | some x =>
          rw [List.map_cons, hf b x hfb]
          exact ih.cons₂ b.id

theorem ids_filterMap_nodup (f : Election → Option Election) (hf : IdOk f)
    (db : List Election) (hnd : (db.map Election.id).Nodup) :
    ((db.filterMap f).map Election.id).Nodup :=
  (ids_filterMap_sublist f hf db).nodup hnd

theorem length_filterMap_le_one (g : Election → Option Election) (e0 : Election) :
    ∀ l : List Election, l.Nodup → (∀ a ∈ l, g a ≠ none → a = e0) →
      (l.filterMap g).length ≤ 1 := by
  intro l
  induction l with
  | nil => intro _ _; simp
  | cons b l ih =>
      intro hnd h
      rw [List.nodup_cons] at hnd
      rw [List.filterMap_cons]
      cases hgb : g b with
      | none => exact ih hnd.2 (fun a ha hne => h a (List.mem_cons_of_mem _ ha) hne)
      | some x =>
          have hb : b = e0 := h b (List.mem_cons_self b l) (by simp [hgb])
          have hrest : l.filterMap g = [] := by
            rw [List.filterMap_eq_nil_iff]
            intro a ha
            by_contra hne
            have : a = e0 := h a (List.mem_cons_of_mem _ ha) hne
            exact hnd.1 (by rw [hb, ← this]; exact ha)
          simp [hrest]

/-! ### The office-flag merge computes the OR over the group -/

theorem ite_or_assoc (x y z : Bool) :
    ((if y = true then true else x) || z) = (x || (y || z)) := by
  cases x <;> cases y <;> cases z <;> rfl

theorem foldl_mergeOffices_eq (l : List Election) : ∀ a : Election,
    l.foldl mergeOffices a =
      { a with
        prez := a.prez || l.any (fun x => x.prez)
        senate := a.senate || l.any (fun x => x.senate)
        house := a.house || l.any (fun x => x.house)
        gov := a.gov || l.any (fun x => x.gov)
        state_officers := a.state_officers || l.any (fun x => x.state_officers)
        state_leg := a.state_leg || l.any (fun x => x.state_leg) } := by
  induction l with
  | nil => intro a; simp
  | cons b l ih =>
      intro a
      rw [List.foldl_cons, ih (mergeOffices a b)]
      obtain ⟨i, sp, rt, st, ed, offc, d, pt, pp, f1, f2, f3, f4, f5, f6⟩ := a
      simp [mergeOffices, List.any_cons, Bool.or_assoc, Bool.or_comm,
        Bool.or_left_comm]

theorem foldl_mergeOffices_orOffices (e0 : Election) (tail : List Election) :
    tail.foldl mergeOffices e0 = orOffices (e0 :: tail) e0 := by
  rw [foldl_mergeOffices_eq]
  simp [orOffices, List.any_cons]

/-! ### The grouping dictionary -/

theorem groupVal_addToGroups {K : Type} [DecidableEq K] (k : K) (e : Election) :
    ∀ (gs : List (K × List Election)) (kq : K),
      groupVal (addToGroups k e gs) kq =
        if kq = k then groupVal gs kq ++ [e] else groupVal gs kq := by
  intro gs
  induction gs with
  | nil =>
      intro kq
      by_cases h : kq = k <;> simp [addToGroups, groupVal, h]
  | cons g rest ih =>
      intro kq
      obtain ⟨k0, es⟩ := g
      by_cases hk : k = k0
      · subst hk
        by_cases h : kq = k <;> simp [addToGroups, groupVal, h]
      · by_cases h : kq = k0
        · subst h
          have hne : kq ≠ k := fun hh => hk hh.symm
          simp [addToGroups, hk, groupVal, hne]
        · simp [addToGroups, hk, groupVal, h, ih]

theorem keys_addToGroups {K : Type} [DecidableEq K] (k : K) (e : Election) :
    ∀ gs : List (K × List Election),
      (addToGroups k e gs).map Prod.fst =
        if k ∈ gs.map Prod.fst then gs.map Prod.fst
        else gs.map Prod.fst ++ [k] := by
  intro gs
  induction gs with
  | nil => simp [addToGroups]
  | cons g rest ih =>
      obtain ⟨k0, es⟩ := g
      by_cases hk : k = k0
      · subst hk; simp [addToGroups]
      · by_cases h : k ∈ rest.map Prod.fst <;>
          simp [addToGroups, hk, ih, h, List.mem_cons]

theorem keys_nodup_addToGroups {K : Type} [DecidableEq K] (k : K) (e : Election)
    (gs : List (K × List Election)) (h : (gs.map Prod.fst).Nodup) :
    ((addToGroups k e gs).map Prod.fst).Nodup := by
  rw [keys_addToGroups]
  by_cases hm : k ∈ gs.map Prod.fst
  · simp [hm, h]
  · simp only [hm, if_false]
    refine h.append (List.nodup_singleton k) ?_
    intro x hx hxk
    rw [List.mem_singleton] at hxk
    exact hm (hxk ▸ hx)

theorem keys_nodup_buildGroups {K : Type} [DecidableEq K] (key : Election → K) :
    ∀ (es : List Election) (gs : List (K × List Election)),
      (gs.map Prod.fst).Nodup →
      ((buildGroups key es gs).map Prod.fst).Nodup := by
  intro es
  induction es with
  | nil => intro gs h; exact h
  | cons e rest ih => intro gs h; exact ih _ (keys_nodup_addToGroups _ e gs h)

theorem groupVal_buildGroups {K : Type} [DecidableEq K] (key : Election → K) :
    ∀ (es : List Election) (gs : List (K × List Election)) (k : K),
      groupVal (buildGroups key es gs) k
        = groupVal gs k ++ es.filter (fun e => decide (key e = k)) := by
  intro es
  induction es with
  | nil => intro gs k; simp [buildGroups]
  | cons e rest ih =>
      intro gs k
      rw [buildGroups, ih, groupVal_addToGroups]
      by_cases h : key e = k
      · subst h
        simp [List.filter_cons, List.append_assoc]
      · have h1 : k ≠ key e := fun hh => h hh.symm
        simp [h1, h, List.filter_cons]

theorem groupVal_ne_nil_mem {K : Type} [DecidableEq K] :
    ∀ (gs : List (K × List Election)) (k : K),
      groupVal gs k ≠ [] → k ∈ gs.map Prod.fst := by
  intro gs
  induction gs with
  | nil => intro k h; exact absurd rfl h
  | cons g rest ih =>
      intro k h
      obtain ⟨k0, es⟩ := g
      by_cases hk : k = k0
      · simp [hk]
      · simp only [groupVal, if_neg hk] at h
        simp [List.mem_cons, ih k h]

theorem mem_groups_val {K : Type} [DecidableEq K] :
    ∀ gs : List (K × List Election), (gs.map Prod.fst).Nodup →
      ∀ g ∈ gs, g.2 = groupVal gs g.1 := by
  intro gs
  induction gs with
  | nil => intro _ g hg; cases hg
  | cons g0 rest ih =>
      intro hnd g hg
      obtain ⟨k0, es0⟩ := g0
      rw [List.map_cons, List.nodup_cons] at hnd
      rcases List.mem_cons.mp hg with h | h
      · subst h; simp [groupVal]
      · have hk : g.1 ≠ k0 := by
          intro hh
          exact hnd.1 (List.mem_map.mpr ⟨g, h, hh⟩)
        simp [groupVal, hk, ih hnd.2 g h]

/-! ### Step 1 is the spec's per-partition collapse -/

theorem mem_partition1 (db : List Election) (k : String × Option String)
    (a : Election) :
    a ∈ partition1 db k ↔
      a ∈ db ∧ isNonSpecialPrimary a = true ∧ key1 a = k := by
  unfold partition1
  simp only [List.mem_filter, decide_eq_true_eq]
  constructor
  · rintro ⟨⟨h1, h2⟩, h3⟩; exact ⟨h1, h2, h3⟩
  · rintro ⟨h1, h2, h3⟩; exact ⟨⟨h1, h2⟩, h3⟩

theorem partition1_sublist (db : List Election) (k : String × Option String) :
    (partition1 db k).Sublist db :=
  (List.filter_sublist _).trans (List.filter_sublist _)

theorem partition1_ids_nodup (db : List Election) (k : String × Option String)
    (hnd : (db.map Election.id).Nodup) :
    ((partition1 db k).map Election.id).Nodup :=
  (((partition1_sublist db k).map Election.id)).nodup hnd

theorem orOffices_id (part : List Election) (e0 : Election) :
    (orOffices part e0).id = e0.id := rfl

theorem spec1At_of_not (db : List Election) (ks : List (String × Option String))
    (a : Election) (h : ¬(isNonSpecialPrimary a = true ∧ key1 a ∈ ks)) :
    spec1At db ks a = some a := by
  unfold spec1At
  rw [if_neg h]

theorem spec1At_of_mem (db : List Election) (ks : List (String × Option String))
    (a : Election) (h1 : isNonSpecialPrimary a = true) (h2 : key1 a ∈ ks) :
    spec1At db ks a =
      (match partition1 db (key1 a) with
        | e0 :: e1 :: rest =>
            if a.id = e0.id then some (orOffices (e0 :: e1 :: rest) e0) else none
        | _ => some a) := by
  unfold spec1At
  rw [if_pos ⟨h1, h2⟩]

theorem idOk_spec1At (db : List Election) (ks : List (String × Option String)) :
    IdOk (spec1At db ks) := by
  intro a x hx
  by_cases hc : isNonSpecialPrimary a = true ∧ key1 a ∈ ks
  · rw [spec1At_of_mem db ks a hc.1 hc.2] at hx
    cases hpart : partition1 db (key1 a) with
    | nil => rw [hpart] at hx; cases hx; rfl
    | cons e0 tl =>
        cases tl with
        | nil => rw [hpart] at hx; cases hx; rfl
        | cons e1 rest =>
            rw [hpart] at hx
            have hx2 : (if a.id = e0.id
                then some (orOffices (e0 :: e1 :: rest) e0) else none)
                = some x := hx
            by_cases hid : a.id = e0.id
            · rw [if_pos hid] at hx2
              cases hx2
              rw [orOffices_id, hid]
            · rw [if_neg hid] at hx2; cases hx2
  · rw [spec1At_of_not db ks a hc] at hx; cases hx; rfl

theorem spec1At_append_eq (db : List Election) (ks : List (String × Option String))
    (k : String × Option String) (a : Election)
    (hne : ¬(isNonSpecialPrimary a = true ∧ key1 a = k)) :
    spec1At db (ks ++ [k]) a = spec1At db ks a := by
  by_cases h1 : isNonSpecialPrimary a = true
  · have hkk : key1 a ≠ k := fun hh => hne ⟨h1, hh⟩
    by_cases h2 : key1 a ∈ ks
    · rw [spec1At_of_mem db _ a h1 (List.mem_append_left _ h2),
        spec1At_of_mem db _ a h1 h2]
    · have h2a : ¬ key1 a ∈ ks ++ [k] := by
        intro hmem
        rcases List.mem_append.mp hmem with h | h
        · exact h2 h
        · exact hkk (List.mem_singleton.mp h)
      rw [spec1At_of_not db _ a (fun hc => h2a hc.2),
        spec1At_of_not db _ a (fun hc => h2 hc.2)]
  · rw [spec1At_of_not db _ a (fun hc => h1 hc.1),
      spec1At_of_not db _ a (fun hc => h1 hc.1)]

theorem id_not_mem_of_not_mem (db : List Election)
    (hnd : (db.map Election.id).Nodup) (a : Election) (ha : a ∈ db)
    (l : List Election) (hl : ∀ b ∈ l, b ∈ db) (hnm : a ∉ l) :
    a.id ∉ l.map Election.id := by
  intro hmem
  obtain ⟨b, hb, hab⟩ := List.mem_map.mp hmem
  have hba : b = a := id_injOn db hnd b (hl b hb) a ha hab
  exact hnm (hba ▸ hb)

theorem collapseGroup_spec1At (db : List Election)
    (hnd : (db.map Election.id).Nodup) (ks : List (String × Option String))
    (k : String × Option String) (hk : k ∉ ks) :
    collapseGroup (db.filterMap (spec1At db ks)) (partition1 db k)
      = db.filterMap (spec1At db (ks ++ [k])) := by
  have hkmem : k ∈ ks ++ [k] := List.mem_append_right _ (List.mem_singleton.mpr rfl)
  cases hpart : partition1 db k with
  | nil =>
      have hcg : ∀ d, collapseGroup d [] = d := fun d => rfl
      rw [hcg]
      refine List.filterMap_congr (fun a ha => ?_)
      refine (spec1At_append_eq db ks k a ?_).symm
      rintro ⟨h1, h2⟩
      have hmem : a ∈ partition1 db k := (mem_partition1 db k a).mpr ⟨ha, h1, h2⟩
      rw [hpart] at hmem
      cases hmem
  | cons e0 tl =>
      cases tl with
      | nil =>
          have hcg : ∀ d, collapseGroup d [e0] = d := fun d => rfl
          rw [hcg]
          refine List.filterMap_congr (fun a ha => ?_)
          by_cases hc : isNonSpecialPrimary a = true ∧ key1 a = k
          · have hL : spec1At db ks a = some a := by
              refine spec1At_of_not db ks a ?_
              rintro ⟨_, hmemks⟩
              rw [hc.2] at hmemks
              exact hk hmemks
            have hR : spec1At db (ks ++ [k]) a = some a := by
              rw [spec1At_of_mem db _ a hc.1 (hc.2 ▸ hkmem), hc.2, hpart]
            rw [hL, hR]
          · exact (spec1At_append_eq db ks k a hc).symm
      | cons e1 rest =>
          have hidok : IdOk (spec1At db ks) := idOk_spec1At db ks
          have hpartmem : ∀ b ∈ partition1 db k, b ∈ db :=
            fun b hb => ((mem_partition1 db k b).mp hb).1
          have hpnodup := partition1_ids_nodup db k hnd
          rw [hpart] at hpartmem hpnodup
          have he0db : e0 ∈ db := hpartmem e0 (List.mem_cons_self _ _)
          have he0 : isNonSpecialPrimary e0 = true ∧ key1 e0 = k := by
            have h := (mem_partition1 db k e0).mp
              (by rw [hpart]; exact List.mem_cons_self _ _)
            exact ⟨h.2.1, h.2.2⟩
          have he0nid : e0.id ∉ (e1 :: rest).map Election.id := by
            rw [List.map_cons, List.nodup_cons] at hpnodup
            exact hpnodup.1
          have htlmem : ∀ b ∈ e1 :: rest, b ∈ db :=
            fun b hb => hpartmem b (List.mem_cons_of_mem _ hb)
          have hcg : collapseGroup (db.filterMap (spec1At db ks)) (e0 :: e1 :: rest)
              = saveRecord
                  ((e1 :: rest).foldl deleteRecord (db.filterMap (spec1At db ks)))
                  ((e1 :: rest).foldl mergeOffices e0) := rfl
          rw [hcg, foldl_mergeOffices_orOffices,
            foldl_deleteRecord_filterMap (e1 :: rest) db (spec1At db ks) hidok,
            saveRecord_filterMap]
          refine List.filterMap_congr (fun a ha => ?_)
          by_cases hc : isNonSpecialPrimary a = true ∧ key1 a = k
          · have hmem : a ∈ partition1 db k := (mem_partition1 db k a).mpr ⟨ha, hc.1, hc.2⟩
            rw [hpart] at hmem
            rcases List.mem_cons.mp hmem with ha0 | hatl
            · subst ha0
              have hL1 : spec1At db ks a = some a := by
                refine spec1At_of_not db ks a ?_
                rintro ⟨_, hmemks⟩
                rw [hc.2] at hmemks
                exact hk hmemks
              have hR : spec1At db (ks ++ [k]) a
                  = some (orOffices (a :: e1 :: rest) a) := by
                have hRm : spec1At db (ks ++ [k]) a
                    = (if a.id = a.id
                        then some (orOffices (a :: e1 :: rest) a) else none) := by
                  rw [spec1At_of_mem db _ a hc.1 (hc.2 ▸ hkmem), hc.2, hpart]
                rw [hRm, if_pos rfl]
              rw [hR, if_neg he0nid, hL1]
              show some (if a.id = (orOffices (a :: e1 :: rest) a).id
                  then orOffices (a :: e1 :: rest) a else a)
                  = some (orOffices (a :: e1 :: rest) a)
              rw [orOffices_id, if_pos rfl]
            · have hLnone : a.id ∈ (e1 :: rest).map Election.id :=
                List.mem_map_of_mem Election.id hatl
              have hne : a.id ≠ e0.id := by
                intro hid
                have hae : a = e0 := id_injOn db hnd a ha e0 he0db hid
                subst hae
                exact he0nid hLnone
              have hR : spec1At db (ks ++ [k]) a = none := by
                have hRm : spec1At db (ks ++ [k]) a
                    = (if a.id = e0.id
                        then some (orOffices (e0 :: e1 :: rest) e0) else none) := by
                  rw [spec1At_of_mem db _ a hc.1 (hc.2 ▸ hkmem), hc.2, hpart]
                rw [hRm, if_neg hne]
              rw [hR, if_pos hLnone]
              rfl
          · have hnm : a ∉ e1 :: rest := by
              intro hmem
              have hmp : a ∈ partition1 db k := by
                rw [hpart]
                exact List.mem_cons_of_mem _ hmem
              exact hc ⟨((mem_partition1 db k a).mp hmp).2.1,
                ((mem_partition1 db k a).mp hmp).2.2⟩
            have hnid : a.id ∉ (e1 :: rest).map Election.id :=
              id_not_mem_of_not_mem db hnd a ha _ htlmem hnm
            have hne0 : a.id ≠ e0.id := by
              intro hid
              have hae : a = e0 := id_injOn db hnd a ha e0 he0db hid
              exact hc (hae ▸ he0)
            rw [(spec1At_append_eq db ks k a hc), if_neg hnid]
            cases hxa : spec1At db ks a with
            | none => rfl
            | some x =>
                have hxid : x.id = a.id := hidok a x hxa
                have hxne : ¬ x.id = (orOffices (e0 :: e1 :: rest) e0).id := by
                  rw [orOffices_id, hxid]; exact hne0
                show some (if x.id = (orOffices (e0 :: e1 :: rest) e0).id
                    then orOffices (e0 :: e1 :: rest) e0 else x) = some x
                rw [if_neg hxne]

theorem foldl_collapseGroup_spec1At (db : List Election)
    (hnd : (db.map Election.id).Nodup) :
    ∀ (gs : List ((String × Option String) × List Election))
      (ks : List (String × Option String)),
      (∀ g ∈ gs, g.2 = partition1 db g.1) →
      ((gs.map Prod.fst).Nodup) →
      (∀ g ∈ gs, g.1 ∉ ks) →
      gs.foldl (fun d g => collapseGroup d g.2) (db.filterMap (spec1At db ks))
        = db.filterMap (spec1At db (ks ++ gs.map Prod.fst)) := by
  intro gs
  induction gs with
  | nil => intro ks _ _ _; simp
  | cons g gs ih =>
      intro ks hpart hnodup hkey
      rw [List.map_cons] at hnodup
      rw [List.nodup_cons] at hnodup
      rw [List.foldl_cons, hpart g (List.mem_cons_self _ _),
        collapseGroup_spec1At db hnd ks g.1 (hkey g (List.mem_cons_self _ _)),
        ih (ks ++ [g.1])
          (fun g2 hg2 => hpart g2 (List.mem_cons_of_mem _ hg2))
          hnodup.2
          (fun g2 hg2 hmem => by
            rcases List.mem_append.mp hmem with h | h
            · exact hkey g2 (List.mem_cons_of_mem _ hg2) h
            · exact hnodup.1
                (List.mem_map.mpr ⟨g2, hg2, List.mem_singleton.mp h⟩)),
        List.map_cons, List.append_assoc, List.singleton_append]

theorem step1_eq_step1Spec_aux (db : List Election)
    (hnd : (db.map Election.id).Nodup) : step1 db = step1Spec db := by
  have hinit : db.filterMap (spec1At db []) = db := by
    rw [show db.filterMap (spec1At db []) = db.filterMap some from
      List.filterMap_congr (fun a _ => spec1At_of_not db [] a (by simp))]
    exact List.filterMap_some db
  have hkeysnd :
      ((buildGroups key1 (db.filter isNonSpecialPrimary) []).map Prod.fst).Nodup :=
    keys_nodup_buildGroups key1 _ [] (by simp)
  have hparts : ∀ g ∈ buildGroups key1 (db.filter isNonSpecialPrimary) [],
      g.2 = partition1 db g.1 := by
    intro g hg
    rw [mem_groups_val _ hkeysnd g hg, groupVal_buildGroups key1 _ [] g.1]
    rfl
  have h := foldl_collapseGroup_spec1At db hnd
    (buildGroups key1 (db.filter isNonSpecialPrimary) []) [] hparts hkeysnd
    (fun g _ => List.not_mem_nil g.1)
  rw [hinit] at h
  show (buildGroups key1 (db.filter isNonSpecialPrimary) []).foldl
      (fun d g => collapseGroup d g.2) db = step1Spec db
  rw [h]
  unfold step1Spec step1Body
  refine List.filterMap_congr (fun a ha => ?_)
  by_cases hP : isNonSpecialPrimary a = true
  · have hcov : key1 a ∈
        ((buildGroups key1 (db.filter isNonSpecialPrimary) []).map Prod.fst) := by
      refine groupVal_ne_nil_mem _ (key1 a) ?_
      rw [groupVal_buildGroups key1 _ [] (key1 a)]
      intro hnil
      have hmem : a ∈ (db.filter isNonSpecialPrimary).filter
          (fun e => decide (key1 e = key1 a)) := by
        rw [List.mem_filter, List.mem_filter]
        exact ⟨⟨ha, hP⟩, by simp⟩
      rw [show groupVal ([] :
          List ((String × Option String) × List Election)) (key1 a) = [] from rfl,
        List.nil_append] at hnil
      rw [hnil] at hmem
      cases hmem
    rw [spec1At_of_mem db _ a hP (List.mem_append_right _ hcov), if_pos hP]
  · rw [spec1At_of_not db _ a (fun hcc => hP hcc.1), if_neg hP]

/-! ### Step 2 is the spec's per-partition deduplication -/

theorem mem_partition2 (db : List Election)
    (k : String × Option String × Option String × String) (a : Election) :
    a ∈ partition2 db k ↔
      a ∈ db ∧ isSpecialPrimary a = true ∧ key2 a = k := by
  unfold partition2
  simp only [List.mem_filter, decide_eq_true_eq]
  constructor
  · rintro ⟨⟨h1, h2⟩, h3⟩; exact ⟨h1, h2, h3⟩
  · rintro ⟨h1, h2, h3⟩; exact ⟨⟨h1, h2⟩, h3⟩

theorem partition2_sublist (db : List Election)
    (k : String × Option String × Option String × String) :
    (partition2 db k).Sublist db :=
  (List.filter_sublist _).trans (List.filter_sublist _)

theorem partition2_ids_nodup (db : List Election)
    (k : String × Option String × Option String × String)
    (hnd : (db.map Election.id).Nodup) :
    ((partition2 db k).map Election.id).Nodup :=
  (((partition2_sublist db k).map Election.id)).nodup hnd

theorem spec2At_of_not (db : List Election)
    (ks : List (String × Option String × Option String × String))
    (a : Election) (h : ¬(isSpecialPrimary a = true ∧ key2 a ∈ ks)) :
    spec2At db ks a = some a := by
  unfold spec2At
  rw [if_neg h]

theorem spec2At_of_mem (db : List Election)
    (ks : List (String × Option String × Option String × String))
    (a : Election) (h1 : isSpecialPrimary a = true) (h2 : key2 a ∈ ks) :
    spec2At db ks a =
      (match partition2 db (key2 a) with
        | e0 :: _ => if a.id = e0.id then some a else none
        | [] => some a) := by
  unfold spec2At
  rw [if_pos ⟨h1, h2⟩]

theorem idOk_spec2At (db : List Election)
    (ks : List (String × Option String × Option String × String)) :
    IdOk (spec2At db ks) := by
  intro a x hx
  by_cases hc : isSpecialPrimary a = true ∧ key2 a ∈ ks
  · rw [spec2At_of_mem db ks a hc.1 hc.2] at hx
    cases hpart : partition2 db (key2 a) with
    | nil => rw [hpart] at hx; cases hx; rfl
    | cons e0 tl =>
        rw [hpart] at hx
        have hx2 : (if a.id = e0.id then some a else none) = some x := hx
        by_cases hid : a.id = e0.id
        · rw [if_pos hid] at hx2; cases hx2; rfl
        · rw [if_neg hid] at hx2; cases hx2
  · rw [spec2At_of_not db ks a hc] at hx; cases hx; rfl

theorem spec2At_append_eq (db : List Election)
    (ks : List (String × Option String × Option String × String))
    (k : String × Option String × Option String × String) (a : Election)
    (hne : ¬(isSpecialPrimary a = true ∧ key2 a = k)) :
    spec2At db (ks ++ [k]) a = spec2At db ks a := by
  by_cases h1 : isSpecialPrimary a = true
  · have hkk : key2 a ≠ k := fun hh => hne ⟨h1, hh⟩
    by_cases h2 : key2 a ∈ ks
    · rw [spec2At_of_mem db _ a h1 (List.mem_append_left _ h2),
        spec2At_of_mem db _ a h1 h2]
    · have h2a : ¬ key2 a ∈ ks ++ [k] := by
        intro hmem
        rcases List.mem_append.mp hmem with h | h
        · exact h2 h
        · exact hkk (List.mem_singleton.mp h)
      rw [spec2At_of_not db _ a (fun hc => h2a hc.2),
        spec2At_of_not db _ a (fun hc => h2 hc.2)]
  · rw [spec2At_of_not db _ a (fun hc => h1 hc.1),
      spec2At_of_not db _ a (fun hc => h1 hc.1)]

theorem dropGroup_spec2At (db : List Election)
    (hnd : (db.map Election.id).Nodup)
    (ks : List (String × Option String × Option String × String))
    (k : String × Option String × Option String × String) (hk : k ∉ ks) :
    dropGroup (db.filterMap (spec2At db ks)) (partition2 db k)
      = db.filterMap (spec2At db (ks ++ [k])) := by
  have hkmem : k ∈ ks ++ [k] := List.mem_append_right _ (List.mem_singleton.mpr rfl)
  cases hpart : partition2 db k with
  | nil =>
      have hcg : ∀ d, dropGroup d [] = d := fun d => rfl
      rw [hcg]
      refine List.filterMap_congr (fun a ha => ?_)
      refine (spec2At_append_eq db ks k a ?_).symm
      rintro ⟨h1, h2⟩
      have hmem : a ∈ partition2 db k := (mem_partition2 db k a).mpr ⟨ha, h1, h2⟩
      rw [hpart] at hmem
      cases hmem
  | cons e0 tl =>
      cases tl with
      | nil =>
          have hcg : ∀ d, dropGroup d [e0] = d := fun d => rfl
          rw [hcg]
          refine List.filterMap_congr (fun a ha => ?_)
          by_cases hc : isSpecialPrimary a = true ∧ key2 a = k
          · have hmem : a ∈ partition2 db k := (mem_partition2 db k a).mpr ⟨ha, hc.1, hc.2⟩
            rw [hpart] at hmem
            have ha0 : a = e0 := List.mem_singleton.mp hmem
            have hL : spec2At db ks a = some a := by
              refine spec2At_of_not db ks a ?_
              rintro ⟨_, hmemks⟩
              rw [hc.2] at hmemks
              exact hk hmemks
            have hR : spec2At db (ks ++ [k]) a = some a := by
              have hRm : spec2At db (ks ++ [k]) a
                  = (if a.id = e0.id then some a else none) := by
                rw [spec2At_of_mem db _ a hc.1 (hc.2 ▸ hkmem), hc.2, hpart]
              rw [hRm, if_pos (by rw [ha0])]
            rw [hL, hR]
          · exact (spec2At_append_eq db ks k a hc).symm
      | cons e1 rest =>
          have hidok : IdOk (spec2At db ks) := idOk_spec2At db ks
          have hpartmem : ∀ b ∈ partition2 db k, b ∈ db :=
            fun b hb => ((mem_partition2 db k b).mp hb).1
          have hpnodup := partition2_ids_nodup db k hnd
          rw [hpart] at hpartmem hpnodup
          have he0db : e0 ∈ db := hpartmem e0 (List.mem_cons_self _ _)
          have he0nid : e0.id ∉ (e1 :: rest).map Election.id := by
            rw [List.map_cons, List.nodup_cons] at hpnodup
            exact hpnodup.1
          have htlmem : ∀ b ∈ e1 :: rest, b ∈ db :=
            fun b hb => hpartmem b (List.mem_cons_of_mem _ hb)
          have hcg : dropGroup (db.filterMap (spec2At db ks)) (e0 :: e1 :: rest)
              = (e1 :: rest).foldl deleteRecord (db.filterMap (spec2At db ks)) := rfl
          rw [hcg, foldl_deleteRecord_filterMap (e1 :: rest) db (spec2At db ks) hidok]
          refine List.filterMap_congr (fun a ha => ?_)
          by_cases hc : isSpecialPrimary a = true ∧ key2 a = k
          · have hmem : a ∈ partition2 db k := (mem_partition2 db k a).mpr ⟨ha, hc.1, hc.2⟩
            rw [hpart] at hmem
            rcases List.mem_cons.mp hmem with ha0 | hatl
            · subst ha0
              have hL1 : spec2At db ks a = some a := by
                refine spec2At_of_not db ks a ?_
                rintro ⟨_, hmemks⟩
                rw [hc.2] at hmemks
                exact hk hmemks
              have hR : spec2At db (ks ++ [k]) a = some a := by
                have hRm : spec2At db (ks ++ [k]) a
                    = (if a.id = a.id then some a else none) := by
                  rw [spec2At_of_mem db _ a hc.1 (hc.2 ▸ hkmem), hc.2, hpart]
                rw [hRm, if_pos rfl]
              rw [hR, if_neg he0nid, hL1]
            · have hLnone : a.id ∈ (e1 :: rest).map Election.id :=
                List.mem_map_of_mem Election.id hatl
              have hne : a.id ≠ e0.id := by
                intro hid
                have hae : a = e0 := id_injOn db hnd a ha e0 he0db hid
                subst hae
                exact he0nid hLnone
              have hR : spec2At db (ks ++ [k]) a = none := by
                have hRm : spec2At db (ks ++ [k]) a
                    = (if a.id = e0.id then some a else none) := by
                  rw [spec2At_of_mem db _ a hc.1 (hc.2 ▸ hkmem), hc.2, hpart]
                rw [hRm, if_neg hne]
              rw [hR, if_pos hLnone]
          · have hnm : a ∉ e1 :: rest := by
              intro hmem
              have hmp : a ∈ partition2 db k := by
                rw [hpart]
                exact List.mem_cons_of_mem _ hmem
              exact hc ⟨((mem_partition2 db k a).mp hmp).2.1,
                ((mem_partition2 db k a).mp hmp).2.2⟩
            have hnid : a.id ∉ (e1 :: rest).map Election.id :=
              id_not_mem_of_not_mem db hnd a ha _ htlmem hnm
            rw [(spec2At_append_eq db ks k a hc), if_neg hnid]

theorem foldl_dropGroup_spec2At (db : List Election)
    (hnd : (db.map Election.id).Nodup) :
    ∀ (gs : List ((String × Option String × Option String × String) × List Election))
      (ks : List (String × Option String × Option String × String)),
      (∀ g ∈ gs, g.2 = partition2 db g.1) →
      ((gs.map Prod.fst).Nodup) →
      (∀ g ∈ gs, g.1 ∉ ks) →
      gs.foldl (fun d g => dropGroup d g.2) (db.filterMap (spec2At db ks))
        = db.filterMap (spec2At db (ks ++ gs.map Prod.fst)) := by
  intro gs
  induction gs with
  | nil => intro ks _ _ _; simp
  | cons g gs ih =>
      intro ks hpart hnodup hkey
      rw [List.map_cons] at hnodup
      rw [List.nodup_cons] at hnodup
      rw [List.foldl_cons, hpart g (List.mem_cons_self _ _),
        dropGroup_spec2At db hnd ks g.1 (hkey g (List.mem_cons_self _ _)),
        ih (ks ++ [g.1])
          (fun g2 hg2 => hpart g2 (List.mem_cons_of_mem _ hg2))
          hnodup.2
          (fun g2 hg2 hmem => by
            rcases List.mem_append.mp hmem with h | h
            · exact hkey g2 (List.mem_cons_of_mem _ hg2) h
            · exact hnodup.1
                (List.mem_map.mpr ⟨g2, hg2, List.mem_singleton.mp h⟩)),
        List.map_cons, List.append_assoc, List.singleton_append]

theorem step2_ok_eq_step2Spec_aux (db : List Election)
    (hnd : (db.map Election.id).Nodup)
    (hdates : ∀ e ∈ db, isSpecialPrimary e = true → e.end_date ≠ none) :
    step2 db = Except.ok (step2Spec db) := by
  have hfind : (db.filter isSpecialPrimary).find? (fun e => e.end_date.isNone) = none := by
    rw [List.find?_eq_none]
    intro e he
    rw [List.mem_filter] at he
    have := hdates e he.1 he.2
    cases hed : e.end_date with
    | none => exact absurd hed this
    | some d => simp [hed]
  have hinit : db.filterMap (spec2At db []) = db := by
    rw [show db.filterMap (spec2At db []) = db.filterMap some from
      List.filterMap_congr (fun a _ => spec2At_of_not db [] a (by simp))]
    exact List.filterMap_some db
  have hkeysnd :
      ((buildGroups key2 (db.filter isSpecialPrimary) []).map Prod.fst).Nodup :=
    keys_nodup_buildGroups key2 _ [] (by simp)
  have hparts : ∀ g ∈ buildGroups key2 (db.filter isSpecialPrimary) [],
      g.2 = partition2 db g.1 := by
    intro g hg
    rw [mem_groups_val _ hkeysnd g hg, groupVal_buildGroups key2 _ [] g.1]
    rfl
  have h := foldl_dropGroup_spec2At db hnd
    (buildGroups key2 (db.filter isSpecialPrimary) []) [] hparts hkeysnd
    (fun g _ => List.not_mem_nil g.1)
  rw [hinit] at h
  unfold step2
  rw [hfind]
  refine congrArg Except.ok ?_
  show (buildGroups key2 (db.filter isSpecialPrimary) []).foldl
      (fun d g => dropGroup d g.2) db = step2Spec db
  rw [h]
  unfold step2Spec step2Body
  refine List.filterMap_congr (fun a ha => ?_)
  by_cases hP : isSpecialPrimary a = true
  · have hcov : key2 a ∈
        ((buildGroups key2 (db.filter isSpecialPrimary) []).map Prod.fst) := by
      refine groupVal_ne_nil_mem _ (key2 a) ?_
      rw [groupVal_buildGroups key2 _ [] (key2 a)]
      intro hnil
      have hmem : a ∈ (db.filter isSpecialPrimary).filter
          (fun e => decide (key2 e = key2 a)) := by
        rw [List.mem_filter, List.mem_filter]
        exact ⟨⟨ha, hP⟩, by simp⟩
      rw [show groupVal ([] :
          List ((String × Option String × Option String × String) × List Election))
          (key2 a) = [] from rfl,
        List.nil_append] at hnil
      rw [hnil] at hmem
      cases hmem
    rw [spec2At_of_mem db _ a hP (List.mem_append_right _ hcov), if_pos hP]
  · rw [spec2At_of_not db _ a (fun hcc => hP hcc.1), if_neg hP]

/-! ### Characterization of the per-record spec bodies -/

theorem isSP_false_of_isNSP (a : Election)
    (h : isNonSpecialPrimary a = true) : isSpecialPrimary a = false := by
  unfold isNonSpecialPrimary at h
  unfold isSpecialPrimary
  simp only [Bool.and_eq_true, Bool.not_eq_true'] at h
  rw [h.1]
  rfl

theorem isNSP_false_of_isSP (a : Election)
    (h : isSpecialPrimary a = true) : isNonSpecialPrimary a = false := by
  unfold isSpecialPrimary at h
  unfold isNonSpecialPrimary
  simp only [Bool.and_eq_true] at h
  rw [h.1]
  rfl

theorem filter_eq_filterMap_ite (p : Election → Bool) :
    ∀ l : List Election,
      l.filter p = l.filterMap (fun a => if p a = true then some a else none) := by
  intro l
  induction l with
  | nil => rfl
  | cons b l ih =>
      rw [List.filter_cons, List.filterMap_cons]
      cases hb : p b <;> simp [hb, ih]

theorem step1Body_some_cases (db : List Election) (a x : Election)
    (hx : step1Body db a = some x) :
    x = a ∨ (isNonSpecialPrimary a = true ∧
      ∃ e0 e1 rest, partition1 db (key1 a) = e0 :: e1 :: rest ∧
        a.id = e0.id ∧ x = orOffices (e0 :: e1 :: rest) e0) := by
  unfold step1Body at hx
  by_cases hP : isNonSpecialPrimary a = true
  · rw [if_pos hP] at hx
    cases hpart : partition1 db (key1 a) with
    | nil =>
        rw [hpart] at hx
        have hx2 : some a = some x := hx
        cases hx2
        left; rfl
    | cons e0 tl =>
        cases tl with
        | nil =>
            rw [hpart] at hx
            have hx2 : some a = some x := hx
            cases hx2
            left; rfl
        | cons e1 rest =>
            rw [hpart] at hx
            have hx2 : (if a.id = e0.id
                then some (orOffices (e0 :: e1 :: rest) e0) else none) = some x := hx
            by_cases hid : a.id = e0.id
            · rw [if_pos hid] at hx2
              have hxe : x = orOffices (e0 :: e1 :: rest) e0 :=
                (Option.some.inj hx2).symm
              right
              exact ⟨hP, e0, e1, rest, hpart ▸ rfl, hid, hxe⟩
            · rw [if_neg hid] at hx2; cases hx2
  · rw [if_neg hP] at hx
    have hx2 : some a = some x := hx
    cases hx2
    left; rfl

theorem step2Body_some_eq (db : List Election) (a x : Election)
    (hx : step2Body db a = some x) : x = a := by
  unfold step2Body at hx
  by_cases hP : isSpecialPrimary a = true
  · rw [if_pos hP] at hx
    cases hpart : partition2 db (key2 a) with
    | nil =>
        rw [hpart] at hx
        have hx2 : some a = some x := hx
        cases hx2; rfl
    | cons e0 tl =>
        rw [hpart] at hx
        have hx2 : (if a.id = e0.id then some a else none) = some x := hx
        by_cases hid : a.id = e0.id
        · rw [if_pos hid] at hx2; cases hx2; rfl
        · rw [if_neg hid] at hx2; cases hx2
  · rw [if_neg hP] at hx
    have hx2 : some a = some x := hx
    cases hx2; rfl

theorem step1Body_none_isNSP (db : List Election) (a : Election)
    (hx : step1Body db a = none) : isNonSpecialPrimary a = true := by
  by_contra hP
  have h1 : step1Body db a = some a := by
    unfold step1Body
    rw [if_neg hP]
  rw [hx] at h1
  cases h1

theorem step2Body_none_isSP (db : List Election) (a : Election)
    (hx : step2Body db a = none) : isSpecialPrimary a = true := by
  by_contra hP
  have h1 : step2Body db a = some a := by
    unfold step2Body
    rw [if_neg hP]
  rw [hx] at h1
  cases h1

theorem idOk_step1Body (db : List Election) : IdOk (step1Body db) := by
  intro a x hx
  rcases step1Body_some_cases db a x hx with h | ⟨_, e0, e1, rest, _, hid, hxe⟩
  · rw [h]
  · rw [hxe, orOffices_id, hid]

theorem idOk_step2Body (db : List Election) : IdOk (step2Body db) := by
  intro a x hx
  rw [step2Body_some_eq db a x hx]

theorem step1Spec_filter_isSP (db : List Election) :
    (step1Spec db).filter isSpecialPrimary = db.filter isSpecialPrimary := by
  unfold step1Spec
  rw [List.filter_filterMap, filter_eq_filterMap_ite isSpecialPrimary db]
  refine List.filterMap_congr (fun a ha => ?_)
  cases hb : step1Body db a with
  | none =>
      have hSP : isSpecialPrimary a = false :=
        isSP_false_of_isNSP a (step1Body_none_isNSP db a hb)
      simp [Option.filter, hSP]
  | some x =>
      rcases step1Body_some_cases db a x hb with hxa | ⟨hP, e0, e1, rest, hpart, hid, hxe⟩
      · subst hxa
        cases hsp : isSpecialPrimary x <;> simp [Option.filter, hsp]
      · have he0 : isNonSpecialPrimary e0 = true := by
          have hm := (mem_partition1 db (key1 a) e0).mp
            (by rw [hpart]; exact List.mem_cons_self _ _)
          exact hm.2.1
        have hx_sp : isSpecialPrimary x = false := by
          rw [hxe]
          exact isSP_false_of_isNSP e0 he0
        have ha_sp : isSpecialPrimary a = false := isSP_false_of_isNSP a hP
        simp [Option.filter, hx_sp, ha_sp]

theorem step2Spec_filter_isNSP (d : List Election) :
    (step2Spec d).filter isNonSpecialPrimary = d.filter isNonSpecialPrimary := by
  unfold step2Spec
  rw [List.filter_filterMap, filter_eq_filterMap_ite isNonSpecialPrimary d]
  refine List.filterMap_congr (fun a ha => ?_)
  cases hb : step2Body d a with
  | none =>
      have hNSP : isNonSpecialPrimary a = false :=
        isNSP_false_of_isSP a (step2Body_none_isSP d a hb)
      simp [Option.filter, hNSP]
  | some x =>
      rw [step2Body_some_eq d a x hb]
      cases hsp : isNonSpecialPrimary a <;> simp [Option.filter, hsp]

theorem step2Spec_subset (d : List Election) (x : Election)
    (hx : x ∈ step2Spec d) : x ∈ d := by
  obtain ⟨a, ha, hba⟩ := List.mem_filterMap.mp hx
  rw [step2Body_some_eq d a x hba]
  exact ha

/-! ### Uniqueness of survivors and fixed points -/

theorem step1Body_out_val (db : List Election)
    (hnd : (db.map Election.id).Nodup) (a1 x : Election) (ha1 : a1 ∈ db)
    (hx : step1Body db a1 = some x) (hPx : isNonSpecialPrimary x = true) :
    (∃ e, partition1 db (key1 x) = [e] ∧ x = e) ∨
    (∃ e0 e1 rest, partition1 db (key1 x) = e0 :: e1 :: rest ∧
      x = orOffices (e0 :: e1 :: rest) e0) := by
  rcases step1Body_some_cases db a1 x hx with hxa | ⟨hP1, e0, e1, rest, hpart, hid, hxe⟩
  · subst hxa
    have hxmem : x ∈ partition1 db (key1 x) :=
      (mem_partition1 db (key1 x) x).mpr ⟨ha1, hPx, rfl⟩
    cases hpart : partition1 db (key1 x) with
    | nil => rw [hpart] at hxmem; cases hxmem
    | cons f0 tl =>
        cases tl with
        | nil =>
            left
            refine ⟨f0, rfl, ?_⟩
            rw [hpart] at hxmem
            exact List.mem_singleton.mp hxmem
        | cons f1 tl2 =>
            right
            refine ⟨f0, f1, tl2, rfl, ?_⟩
            unfold step1Body at hx
            rw [if_pos hPx, hpart] at hx
            have hx2 : (if x.id = f0.id
                then some (orOffices (f0 :: f1 :: tl2) f0) else none) = some x := hx
            by_cases hid : x.id = f0.id
            · rw [if_pos hid] at hx2
              exact (Option.some.inj hx2).symm
            · rw [if_neg hid] at hx2; cases hx2
  · have he0mem : e0 ∈ partition1 db (key1 a1) := by
      rw [hpart]; exact List.mem_cons_self _ _
    have he0db : e0 ∈ db := ((mem_partition1 db (key1 a1) e0).mp he0mem).1
    have hae : a1 = e0 := id_injOn db hnd a1 ha1 e0 he0db hid
    have hkx : key1 x = key1 a1 := by
      rw [hxe]
      show key1 e0 = key1 a1
      rw [hae]
    right
    refine ⟨e0, e1, rest, ?_, hxe⟩
    rw [hkx]
    exact hpart

theorem step1Spec_uniq (db : List Election)
    (hnd : (db.map Election.id).Nodup) :
    ∀ a b, a ∈ step1Spec db → b ∈ step1Spec db →
      isNonSpecialPrimary a = true → isNonSpecialPrimary b = true →
      key1 a = key1 b → a = b := by
  intro a b ha hb hPa hPb hk
  obtain ⟨a1, ha1, hba⟩ := List.mem_filterMap.mp ha
  obtain ⟨b1, hb1, hbb⟩ := List.mem_filterMap.mp hb
  rcases step1Body_out_val db hnd a1 a ha1 hba hPa with
      ⟨e, hpa, hxa⟩ | ⟨e0, e1, rest, hpa, hxa⟩ <;>
    rcases step1Body_out_val db hnd b1 b hb1 hbb hPb with
      ⟨f, hpb, hxb⟩ | ⟨f0, f1, frest, hpb, hxb⟩ <;>
    rw [hk] at hpa
  · have h := hpa.symm.trans hpb
    injection h with h1 _
    rw [hxa, hxb, h1]
  · have h := hpa.symm.trans hpb
    injection h with _ h2
    cases h2
  · have h := hpa.symm.trans hpb
    injection h with _ h2
    cases h2
  · have h := hpa.symm.trans hpb
    injection h with h1 h2
    rw [hxa, hxb, h1, h2]

theorem step2Body_out_val (d : List Election)
    (hnd : (d.map Election.id).Nodup) (a1 x : Election) (ha1 : a1 ∈ d)
    (hx : step2Body d a1 = some x) (hPx : isSpecialPrimary x = true) :
    ∃ e0 tl, partition2 d (key2 x) = e0 :: tl ∧ x = e0 := by
  have hxa : x = a1 := step2Body_some_eq d a1 x hx
  subst hxa
  have hxmem : x ∈ partition2 d (key2 x) :=
    (mem_partition2 d (key2 x) x).mpr ⟨ha1, hPx, rfl⟩
  cases hpart : partition2 d (key2 x) with
  | nil => rw [hpart] at hxmem; cases hxmem
  | cons e0 tl =>
      refine ⟨e0, tl, rfl, ?_⟩
      unfold step2Body at hx
      rw [if_pos hPx, hpart] at hx
      have hx2 : (if x.id = e0.id then some x else none) = some x := hx
      by_cases hid : x.id = e0.id
      · have he0mem : e0 ∈ partition2 d (key2 x) := by
          rw [hpart]; exact List.mem_cons_self _ _
        have he0d : e0 ∈ d := ((mem_partition2 d (key2 x) e0).mp he0mem).1
        exact id_injOn d hnd x ha1 e0 he0d hid
      · rw [if_neg hid] at hx2; cases hx2

theorem step2Spec_uniq (d : List Election)
    (hnd : (d.map Election.id).Nodup) :
    ∀ a b, a ∈ step2Spec d → b ∈ step2Spec d →
      isSpecialPrimary a = true → isSpecialPrimary b = true →
      key2 a = key2 b → a = b := by
  intro a b ha hb hPa hPb hk
  obtain ⟨a1, ha1, hba⟩ := List.mem_filterMap.mp ha
  obtain ⟨b1, hb1, hbb⟩ := List.mem_filterMap.mp hb
  obtain ⟨e0, tl, hpa, hxa⟩ := step2Body_out_val d hnd a1 a ha1 hba hPa
  obtain ⟨f0, ftl, hpb, hxb⟩ := step2Body_out_val d hnd b1 b hb1 hbb hPb
  rw [hk] at hpa
  have h := hpa.symm.trans hpb
  injection h with h1 _
  rw [hxa, hxb, h1]

theorem step1Spec_id_of_uniq (d : List Election)
    (hnd : (d.map Election.id).Nodup)
    (huniq : ∀ a b, a ∈ d → b ∈ d → isNonSpecialPrimary a = true →
      isNonSpecialPrimary b = true → key1 a = key1 b → a = b) :
    step1Spec d = d := by
  have hpt : ∀ e ∈ d, step1Body d e = some e := by
    intro e he
    unfold step1Body
    by_cases hP : isNonSpecialPrimary e = true
    · rw [if_pos hP]
      have hmem : e ∈ partition1 d (key1 e) :=
        (mem_partition1 d (key1 e) e).mpr ⟨he, hP, rfl⟩
      cases hpart : partition1 d (key1 e) with
      | nil => rfl
      | cons e0 tl =>
          cases tl with
          | nil => rfl
          | cons e1 rest =>
              exfalso
              have he0 : e0 ∈ partition1 d (key1 e) := by
                rw [hpart]; exact List.mem_cons_self _ _
              have he1 : e1 ∈ partition1 d (key1 e) := by
                rw [hpart]
                exact List.mem_cons_of_mem _ (List.mem_cons_self _ _)
              have h0 := (mem_partition1 d (key1 e) e0).mp he0
              have h1 := (mem_partition1 d (key1 e) e1).mp he1
              have heq : e0 = e1 :=
                huniq e0 e1 h0.1 h1.1 h0.2.1 h1.2.1 (h0.2.2.trans h1.2.2.symm)
              have hvnd : (partition1 d (key1 e)).Nodup :=
                (partition1_ids_nodup d (key1 e) hnd).of_map Election.id
              rw [hpart, List.nodup_cons] at hvnd
              refine hvnd.1 ?_
              rw [heq]
              exact List.mem_cons_self _ _
    · rw [if_neg hP]
  unfold step1Spec
  rw [List.filterMap_congr hpt, List.filterMap_some]

theorem step2Spec_id_of_uniq (d : List Election)
    (huniq : ∀ a b, a ∈ d → b ∈ d → isSpecialPrimary a = true →
      isSpecialPrimary b = true → key2 a = key2 b → a = b) :
    step2Spec d = d := by
  have hpt : ∀ e ∈ d, step2Body d e = some e := by
    intro e he
    unfold step2Body
    by_cases hP : isSpecialPrimary e = true
    · rw [if_pos hP]
      have hmem : e ∈ partition2 d (key2 e) :=
        (mem_partition2 d (key2 e) e).mpr ⟨he, hP, rfl⟩
      cases hpart : partition2 d (key2 e) with
      | nil => rfl
      | cons e0 tl =>
          have he0 : e0 ∈ partition2 d (key2 e) := by
            rw [hpart]; exact List.mem_cons_self _ _
          have h0 := (mem_partition2 d (key2 e) e0).mp he0
          have heq : e = e0 := huniq e e0 he h0.1 hP h0.2.1 h0.2.2.symm
          show (if e.id = e0.id then some e else none) = some e
          rw [if_pos (by rw [heq])]
    · rw [if_neg hP]
  unfold step2Spec
  rw [List.filterMap_congr hpt, List.filterMap_some]

theorem nodup_values_of_ids (d : List Election)
    (hnd : (d.map Election.id).Nodup) : d.Nodup :=
  hnd.of_map Election.id

theorem length_filter_le_one_of_uniq (d : List Election) (hd : d.Nodup)
    (p : Election → Bool)
    (h : ∀ a b, a ∈ d → b ∈ d → p a = true → p b = true → a = b) :
    (d.filter p).length ≤ 1 := by
  have hnd2 : (d.filter p).Nodup := hd.filter p
  cases hf : d.filter p with
  | nil => simp
  | cons x tl =>
      cases tl with
      | nil => simp
      | cons y tl2 =>
          exfalso
          have hx : x ∈ d.filter p := by rw [hf]; exact List.mem_cons_self _ _
          have hy : y ∈ d.filter p := by
            rw [hf]
            exact List.mem_cons_of_mem _ (List.mem_cons_self _ _)
          have hx2 := List.mem_filter.mp hx
          have hy2 := List.mem_filter.mp hy
          have hxy : x = y := h x y hx2.1 hy2.1 hx2.2 hy2.2
          rw [hf, List.nodup_cons] at hnd2
          refine hnd2.1 ?_
          rw [hxy]
          exact List.mem_cons_self _ _

theorem forwards_ok_anatomy (db db1 : List Election)
    (hnd : (db.map Election.id).Nodup)
    (hok : forwards db = Except.ok db1) :
    db1 = step2Spec (step1Spec db) ∧
    (∀ e ∈ step1Spec db, isSpecialPrimary e = true → e.end_date ≠ none) := by
  unfold forwards at hok
  rw [step1_eq_step1Spec_aux db hnd] at hok
  have hnd1 : ((step1Spec db).map Election.id).Nodup :=
    ids_filterMap_nodup (step1Body db) (idOk_step1Body db) db hnd
  have hfind : ((step1Spec db).filter isSpecialPrimary).find?
      (fun e => e.end_date.isNone) = none := by
    cases hf : ((step1Spec db).filter isSpecialPrimary).find?
        (fun e => e.end_date.isNone) with
    | none => rfl
    | some e2 =>
        exfalso
        unfold step2 at hok
        rw [hf] at hok
        exact Except.noConfusion
          (show Except.error (toString e2.id ++ " has no end_date")
            = Except.ok db1 from hok)
  have hdates : ∀ e ∈ step1Spec db, isSpecialPrimary e = true →
      e.end_date ≠ none := by
    intro e he hsp hnone
    rw [List.find?_eq_none] at hfind
    refine hfind e ?_ ?_
    · rw [List.mem_filter]; exact ⟨he, hsp⟩
    · rw [hnone]; rfl
  have h2 := step2_ok_eq_step2Spec_aux (step1Spec db) hnd1 hdates
  rw [h2] at hok
  exact ⟨(Except.ok.inj hok).symm, hdates⟩

/-- C2: step 1 of the Merge/Collapse Procedure partitions the records with
`special = False` and `race_type = 'primary'` by `(state, end_date)`; in
every partition with more than one record it keeps the first record of the
partition's iteration order with each of the six office flags set to the
OR of that flag over the whole partition and deletes the other records of
the partition, while records in singleton partitions and records that are
special or not primaries are neither modified nor deleted (`step1Spec`
transcribes exactly this description). -/
theorem step1_collapses_partitions (db : List Election)
    (hnd : (db.map Election.id).Nodup) :
    step1 db = step1Spec db :=
  step1_eq_step1Spec_aux db hnd

theorem step1_collapses_partitions_witness :
    ((dbSample.map Election.id).Nodup) ∧ step1 dbSample = step1Spec dbSample :=
  ⟨by decide, step1_collapses_partitions dbSample (by decide)⟩

/-- C3: the Merge/Collapse Procedure is idempotent: on any record set on
which one run completes successfully, a second run performs no deletions
and changes no field of any record — it returns its input unchanged. -/
theorem forwards_idempotent (db db1 : List Election)
    (hnd : (db.map Election.id).Nodup)
    (hok : forwards db = Except.ok db1) :
    forwards db1 = Except.ok db1 := by
  obtain ⟨hdb1, hdates1⟩ := forwards_ok_anatomy db db1 hnd hok
  have hnd1 : ((step1Spec db).map Election.id).Nodup :=
    ids_filterMap_nodup (step1Body db) (idOk_step1Body db) db hnd
  have hnd2 : (db1.map Election.id).Nodup := by
    rw [hdb1]
    exact ids_filterMap_nodup (step2Body (step1Spec db)) (idOk_step2Body _) _ hnd1
  have huniqN : ∀ a b, a ∈ db1 → b ∈ db1 → isNonSpecialPrimary a = true →
      isNonSpecialPrimary b = true → key1 a = key1 b → a = b := by
    intro a b ha hb hpa hpb hk
    rw [hdb1] at ha hb
    exact step1Spec_uniq db hnd a b (step2Spec_subset _ a ha)
      (step2Spec_subset _ b hb) hpa hpb hk
  have huniqS : ∀ a b, a ∈ db1 → b ∈ db1 → isSpecialPrimary a = true →
      isSpecialPrimary b = true → key2 a = key2 b → a = b := by
    intro a b ha hb hpa hpb hk
    rw [hdb1] at ha hb
    exact step2Spec_uniq (step1Spec db) hnd1 a b ha hb hpa hpb hk
  have hdatesb : ∀ e ∈ db1, isSpecialPrimary e = true → e.end_date ≠ none := by
    intro e he hsp
    rw [hdb1] at he
    exact hdates1 e (step2Spec_subset _ e he) hsp
  have hstep1 : step1 db1 = db1 := by
    rw [step1_eq_step1Spec_aux db1 hnd2]
    exact step1Spec_id_of_uniq db1 hnd2 huniqN
  unfold forwards
  rw [hstep1, step2_ok_eq_step2Spec_aux db1 hnd2 hdatesb,
    step2Spec_id_of_uniq db1 huniqS]

theorem forwards_idempotent_witness :
    forwards dbSampleMerged = Except.ok dbSampleMerged :=
  forwards_idempotent dbSample dbSampleMerged (by decide) (by decide)

/-- C8: the Merge/Collapse Procedure fails with a fatal error exactly when
some record with `special = True` and `race_type = 'primary'` has no
`end_date`; on failure the special primary records (taken in the database
state `step1 db` reached at the point of failure) are exactly the original
ones, unmodified; and on success the result is `step2Spec` of the
post-step-1 state: every `(state, end_date, office, district)` partition
of special primaries is reduced to its first record, with no field of any
record modified. -/
theorem forwards_end_date_failure (db : List Election)
    (hnd : (db.map Election.id).Nodup) :
    ((∃ msg, forwards db = Except.error msg) ↔
      ∃ e ∈ db, isSpecialPrimary e = true ∧ e.end_date = none) ∧
    (∀ msg, forwards db = Except.error msg →
      (step1 db).filter isSpecialPrimary = db.filter isSpecialPrimary) ∧
    (∀ db1, forwards db = Except.ok db1 → db1 = step2Spec (step1 db)) := by
  have haux := step1_eq_step1Spec_aux db hnd
  have hsp : (step1 db).filter isSpecialPrimary = db.filter isSpecialPrimary := by
    rw [haux]
    exact step1Spec_filter_isSP db
  refine ⟨⟨?_, ?_⟩, fun _ _ => hsp, ?_⟩
  · rintro ⟨msg, hmsg⟩
    unfold forwards step2 at hmsg
    cases hfind : ((step1 db).filter isSpecialPrimary).find?
        (fun e => e.end_date.isNone) with
    | none =>
        rw [hfind] at hmsg
        exact Except.noConfusion
          (show Except.ok ((buildGroups key2 ((step1 db).filter isSpecialPrimary)
              []).foldl (fun d g => dropGroup d g.2) (step1 db))
            = Except.error msg from hmsg)
    | some e =>
        have hmem : e ∈ (step1 db).filter isSpecialPrimary :=
          List.mem_of_find?_eq_some hfind
        have hp0 := List.find?_some hfind
        have hp : e.end_date.isNone = true := hp0
        rw [hsp, List.mem_filter] at hmem
        refine ⟨e, hmem.1, hmem.2, ?_⟩
        cases hed : e.end_date with
        | none => rfl
        | some dd => rw [hed] at hp; simp at hp
  · rintro ⟨e, he, hsp_e, hed⟩
    unfold forwards step2
    cases hfind : ((step1 db).filter isSpecialPrimary).find?
        (fun e => e.end_date.isNone) with
    | some e2 => exact ⟨toString e2.id ++ " has no end_date", rfl⟩
    | none =>
        exfalso
        rw [List.find?_eq_none] at hfind
        refine hfind e ?_ ?_
        · rw [hsp, List.mem_filter]; exact ⟨he, hsp_e⟩
        · rw [hed]; rfl
  · intro db1 hok
    obtain ⟨hdb1, _⟩ := forwards_ok_anatomy db db1 hnd hok
    rw [hdb1, haux]

theorem forwards_end_date_failure_witness :
    dbSampleMerged = step2Spec (step1 dbSample) :=
  (forwards_end_date_failure dbSample (by decide)).2.2 dbSampleMerged (by decide)

/-- C10: after any successful run of the Merge/Collapse Procedure the
record set satisfies the uniqueness invariant: for every `(state,
end_date)` pair at most one record with `special = False` and `race_type
= 'primary'` remains, and for every `(state, end_date, office, district)`
quadruple at most one record with `special = True` and `race_type =
'primary'` remains. -/
theorem forwards_unique_records (db db1 : List Election)
    (hnd : (db.map Election.id).Nodup)
    (hok : forwards db = Except.ok db1) :
    (∀ k : String × Option String,
      (db1.filter (fun e => isNonSpecialPrimary e &&
        decide (key1 e = k))).length ≤ 1) ∧
    (∀ k : String × Option String × Option String × String,
      (db1.filter (fun e => isSpecialPrimary e &&
        decide (key2 e = k))).length ≤ 1) := by
  obtain ⟨hdb1, hdates1⟩ := forwards_ok_anatomy db db1 hnd hok
  have hnd1 : ((step1Spec db).map Election.id).Nodup :=
    ids_filterMap_nodup (step1Body db) (idOk_step1Body db) db hnd
  have hnd2 : (db1.map Election.id).Nodup := by
    rw [hdb1]
    exact ids_filterMap_nodup (step2Body (step1Spec db)) (idOk_step2Body _) _ hnd1
  have hvnd : db1.Nodup := nodup_values_of_ids db1 hnd2
  constructor
  · intro k
    refine length_filter_le_one_of_uniq db1 hvnd _ ?_
    intro a b ha hb hpa hpb
    simp only [Bool.and_eq_true, decide_eq_true_eq] at hpa hpb
    rw [hdb1] at ha hb
    exact step1Spec_uniq db hnd a b (step2Spec_subset _ a ha)
      (step2Spec_subset _ b hb) hpa.1 hpb.1 (hpa.2.trans hpb.2.symm)
  · intro k
    refine length_filter_le_one_of_uniq db1 hvnd _ ?_
    intro a b ha hb hpa hpb
    simp only [Bool.and_eq_true, decide_eq_true_eq] at hpa hpb
    rw [hdb1] at ha hb
    exact step2Spec_uniq (step1Spec db) hnd1 a b ha hb hpa.1 hpb.1
      (hpa.2.trans hpb.2.symm)

theorem forwards_unique_records_witness :
    ((dbSampleMerged.filter (fun e => isNonSpecialPrimary e &&
      decide (key1 e = ("FL", some "2012-08-14")))).length ≤ 1) ∧
    ((dbSampleMerged.filter (fun e => isSpecialPrimary e &&
      decide (key2 e = ("FL", some "2011-09-20", some "state-senate",
        "1")))).length ≤ 1) :=
  ⟨(forwards_unique_records dbSample dbSampleMerged (by decide) (by decide)).1 _,
   (forwards_unique_records dbSample dbSampleMerged (by decide) (by decide)).2 _⟩

/-! ### Key derivation and validation claims -/

/-- C1: for every non-special general election `elec_key` is
`(end_date, state_postal, 'general', *offices)` with no qualifier, and for
every non-special primary it is
`(end_date, state_postal, 'primary', primary_party?, *offices)` with the
party component present exactly when a primary_party is set; the FL
2012-11-06 general yields the spec's example tuple, and the as_string
mode renders the same tuple joined by " - " with the office list wrapped
in parentheses and joined by ", ". -/
theorem elec_key_general_primary :
    (∀ e : Election, e.race_type = "general" → e.special = false →
      e.elec_key = [e.end_date.getD "", e.state_id, "general"] ++ e.offices) ∧
    (∀ e : Election, e.race_type = "primary" → e.special = false →
      (∀ p, e.primary_party = some p →
        e.elec_key
          = [e.end_date.getD "", e.state_id, "primary", p] ++ e.offices) ∧
      (e.primary_party = none →
        e.elec_key = [e.end_date.getD "", e.state_id, "primary"] ++ e.offices)) ∧
    flGeneral.elec_key = ["2012-11-06", "FL", "general", "prez", "senate",
      "house", "state_officers", "state_leg"] ∧
    flGeneral.elec_key_string
      = "2012-11-06 - FL - general (prez, senate, house, state_officers, state_leg)" := by
  refine ⟨?_, ?_, by decide, rfl⟩
  · intro e hrt hsp
    unfold Election.elec_key
    rw [hrt, hsp]
    simp
  · intro e hrt hsp
    constructor
    · intro p hp
      unfold Election.elec_key
      rw [hrt, hsp, hp]
      simp
    · intro hp
      unfold Election.elec_key
      rw [hrt, hsp, hp]
      simp

theorem elec_key_general_primary_witness :
    flGopPrimary.elec_key
      = ["2012-08-14", "FL", "primary", "REP", "senate", "house", "state_leg"] :=
  ((elec_key_general_primary.2.1 flGopPrimary rfl rfl).1 "REP" rfl).trans
    (by decide)

/-- C4 counterexample: the claim asserts that a primary with primary_type
'other' passes validation; on the code — pinned by the expected
`ValidationError` of `ElectionTest.test_primary_elec_validation_rules` —
it fails. -/
theorem clean_primary_other_counterexample :
    Election.race_type { flGopPrimary with primary_type := "other" }
        = "primary" ∧
    Election.primary_type { flGopPrimary with primary_type := "other" }
        = "other" ∧
    Election.clean { flGopPrimary with primary_type := "other" }
        ≠ Except.ok () := by
  exact ⟨rfl, rfl, by decide⟩

/-- C4 (amended): for every primary election, clean() fails when
primary_type is empty and also when it is 'other' (an edge case requiring
explanation, per the expected ValidationError of
`ElectionTest.test_primary_elec_validation_rules`); it succeeds for open
and closed primaries with a primary_party set.  The blanket case is an
explicit open question (spec §9) not pinned by any in-src test, so the
amended claim asserts nothing about it. -/
theorem clean_primary_rules (e : Election) (hrt : e.race_type = "primary") :
    (e.primary_type = "" → e.clean ≠ Except.ok ()) ∧
    (e.primary_type = "other" → e.clean ≠ Except.ok ()) ∧
    ((e.primary_type = "open" ∨ e.primary_type = "closed") →
      e.primary_party ≠ none → e.clean = Except.ok ()) := by
  unfold Election.clean
  rw [hrt]
  refine ⟨?_, ?_, ?_⟩
  · intro h; rw [h]; simp
  · intro h; rw [h]; simp
  · intro hoc hpp
    cases hppv : e.primary_party with
    | none => exact absurd hppv hpp
    | some p =>
        rcases hoc with h | h <;> rw [h] <;> simp

theorem clean_primary_rules_witness :
    Election.clean { flGopPrimary with primary_type := "" } ≠ Except.ok () ∧
    flGopPrimary.clean = Except.ok () :=
  ⟨(clean_primary_rules { flGopPrimary with primary_type := "" } rfl).1 rfl,
   (clean_primary_rules flGopPrimary rfl).2.2 (Or.inr rfl) (by decide)⟩

/-- C5: for every general election, clean() succeeds when at least one of
the six office flags is true and primary_type and primary_party are
unset; it fails when all six office flags are false; and it fails when
primary_type is set even though an office flag is true (it fails whenever
primary_type is set). -/
theorem clean_general_rules (e : Election) (hrt : e.race_type = "general") :
    ((e.prez || e.senate || e.house || e.gov || e.state_officers ||
        e.state_leg) = true →
      e.primary_type = "" → e.primary_party = none →
      e.clean = Except.ok ()) ∧
    ((e.prez || e.senate || e.house || e.gov || e.state_officers ||
        e.state_leg) = false →
      e.clean ≠ Except.ok ()) ∧
    (e.primary_type ≠ "" → e.clean ≠ Except.ok ()) := by
  unfold Election.clean
  rw [hrt]
  refine ⟨?_, ?_, ?_⟩
  · intro hflags hpt hpp
    rw [hflags, hpt, hpp]
    simp
  · intro hflags
    rw [hflags]
    simp
  · intro hpt
    cases hflags : (e.prez || e.senate || e.house || e.gov ||
        e.state_officers || e.state_leg) <;> simp [hpt]

theorem clean_general_rules_witness :
    flGeneral.clean = Except.ok () ∧
    Election.clean { flGeneral with primary_type := "closed" }
      ≠ Except.ok () :=
  ⟨(clean_general_rules flGeneral rfl).1 (by decide) rfl rfl,
   (clean_general_rules { flGeneral with primary_type := "closed" } rfl).2.2
     (by decide)⟩

/-- C6: results_status is None when no related record matches any tracked
level-status category; it is 'raw' when some related record has
precinct_level_status 'baked-raw' and no record has the coarser cleaner
marker county_level_status 'baked'; and it is 'clean' when, in addition
to a precinct-level 'baked-raw' record, some record has
county_level_status 'baked' — an ordered rule list, first match wins. -/
theorem results_status_rules (rs : List ResultRecord) :
    ((∀ r ∈ rs, r.precinct_level_status ≠ "baked-raw" ∧
        r.county_level_status ≠ "baked") → results_status rs = none) ∧
    ((∃ r ∈ rs, r.precinct_level_status = "baked-raw") →
      (∀ r ∈ rs, r.county_level_status ≠ "baked") →
      results_status rs = some "raw") ∧
    ((∃ r ∈ rs, r.precinct_level_status = "baked-raw") →
      (∃ r ∈ rs, r.county_level_status = "baked") →
      results_status rs = some "clean") := by
  have hpmem : ∀ r, r ∈ rs.filter (fun r => r.precinct_level_status == "baked-raw")
      ↔ r ∈ rs ∧ r.precinct_level_status = "baked-raw" := by
    intro r
    rw [List.mem_filter]
    simp
  have hcmem : ∀ r, r ∈ rs.filter (fun r => r.county_level_status == "baked")
      ↔ r ∈ rs ∧ r.county_level_status = "baked" := by
    intro r
    rw [List.mem_filter]
    simp
  have hplen : 0 < (rs.filter
      (fun r => r.precinct_level_status == "baked-raw")).length
      ↔ ∃ r ∈ rs, r.precinct_level_status = "baked-raw" := by
    rw [List.length_pos_iff_exists_mem]
    constructor
    · rintro ⟨r, hr⟩
      exact ⟨r, (hpmem r).mp hr⟩
    · rintro ⟨r, hr1, hr2⟩
      exact ⟨r, (hpmem r).mpr ⟨hr1, hr2⟩⟩
  have hclen : 0 < (rs.filter
      (fun r => r.county_level_status == "baked")).length
      ↔ ∃ r ∈ rs, r.county_level_status = "baked" := by
    rw [List.length_pos_iff_exists_mem]
    constructor
    · rintro ⟨r, hr⟩
      exact ⟨r, (hcmem r).mp hr⟩
    · rintro ⟨r, hr1, hr2⟩
      exact ⟨r, (hcmem r).mpr ⟨hr1, hr2⟩⟩
  refine ⟨?_, ?_, ?_⟩
  · intro h
    unfold results_status
    rw [if_neg, if_neg]
    · intro hp
      obtain ⟨r, hr1, hr2⟩ := hplen.mp hp
      exact (h r hr1).1 hr2
    · rintro ⟨hp, _⟩
      obtain ⟨r, hr1, hr2⟩ := hplen.mp hp
      exact (h r hr1).1 hr2
  · intro hex hall
    unfold results_status
    rw [if_neg, if_pos (hplen.mpr hex)]
    rintro ⟨_, hc⟩
    obtain ⟨r, hr1, hr2⟩ := hclen.mp hc
    exact hall r hr1 hr2
  · intro hex1 hex2
    unfold results_status
    rw [if_pos ⟨hplen.mpr hex1, hclen.mpr hex2⟩]

theorem results_status_rules_witness :
    results_status [] = none ∧
    results_status [⟨"baked-raw", ""⟩] = some "raw" ∧
    results_status [⟨"baked-raw", ""⟩, ⟨"", "baked"⟩] = some "clean" :=
  ⟨(results_status_rules []).1 (by decide),
   (results_status_rules [⟨"baked-raw", ""⟩]).2.1
     ⟨⟨"baked-raw", ""⟩, by decide, rfl⟩ (by decide),
   (results_status_rules [⟨"baked-raw", ""⟩, ⟨"", "baked"⟩]).2.2
     ⟨⟨"baked-raw", ""⟩, by decide, rfl⟩ ⟨⟨"", "baked"⟩, by decide, rfl⟩⟩

/-- C7: special_key() is the empty tuple for non-special elections, and
for special elections it is `(race_type, office_slug, district)` when the
district field is non-empty and `(race_type, office_slug)` when it is
empty; the spec's example special election (office 'state-senate',
district '1') yields ('special','state-senate','1'), and with the
district cleared ('special','state-senate'). -/
theorem special_key_shape :
    (∀ e : Election, e.special = false → e.special_key = []) ∧
    (∀ e : Election, e.special = true → e.district ≠ "" →
      e.special_key = [e.race_type, e.office_id.getD "", e.district]) ∧
    (∀ e : Election, e.special = true → e.district = "" →
      e.special_key = [e.race_type, e.office_id.getD ""]) ∧
    flSpecial.special_key = ["special", "state-senate", "1"] ∧
    Election.special_key { flSpecial with district := "" }
      = ["special", "state-senate"] := by
  refine ⟨?_, ?_, ?_, by decide, by decide⟩
  · intro e h
    unfold Election.special_key
    rw [h]
    simp
  · intro e h hd
    unfold Election.special_key
    rw [h]
    simp [hd]
  · intro e h hd
    unfold Election.special_key
    rw [h, hd]
    simp

theorem special_key_shape_witness :
    flSpecial.special_key
      = [flSpecial.race_type, flSpecial.office_id.getD "",
         flSpecial.district] :=
  special_key_shape.2.1 flSpecial rfl (by decide)

/-- C9 counterexample: at the log of `LogTest.test_log_key` the contact's
descriptive label is inserted before the subject, so log_key is not the
(state, date, subject) tuple extended at the end with the label. -/
theorem log_key_counterexample :
    ksLogContact.log_key
      = ["KS", "2013-03-28",
         "Williams (Kansas Secretary of State elections division)",
         "Test subject line"] ∧
    ksLogContact.log_key
      ≠ ["KS", "2013-03-28", "Test subject line",
         "Williams (Kansas Secretary of State elections division)"] := by
  exact ⟨rfl, by decide⟩

/-- C9 (amended): log_key() returns (state, date, subject) when the log
has no contact; when a contact is set the contact's descriptive label is
inserted before the subject, giving (state, date, contact_label,
subject); the as_string mode joins the components with " - ". -/
theorem log_key_rules (l : Log) :
    (l.contact = none → l.log_key = [l.state_id, l.date, l.subject]) ∧
    (∀ c, l.contact = some c →
      l.log_key = [l.state_id, l.date, c, l.subject]) ∧
    l.log_key_string = " - ".intercalate l.log_key := by
  refine ⟨?_, ?_, rfl⟩
  · intro h
    unfold Log.log_key
    rw [h]
  · intro c h
    unfold Log.log_key
    rw [h]

theorem log_key_rules_witness :
    ksLog.log_key = ["KS", "2013-03-28", "Test subject line"] ∧
    ksLogContact.log_key
      = ["KS", "2013-03-28",
         "Williams (Kansas Secretary of State elections division)",
         "Test subject line"] :=
  ⟨(log_key_rules ksLog).1 rfl,
   (log_key_rules ksLogContact).2.1
     "Williams (Kansas Secretary of State elections division)" rfl⟩

end Hub
